import Mathlib

/-!
Shallow embedding of the module-registry / call-dispatch engine of
`src/ReactUbuntu/runtime/src/reactbridge.cpp` (class `ReactBridge`),
together with proofs about the batch-dispatch and lifecycle behaviour.

Conventions used throughout:
* `QVariant` models the subset of Qt's variant type that flows through the
  dispatch path (null, bool, int, string, list).
* `QMap<int, ReactModuleData*>` is modelled as an association list
  `ModMap := List (Int × Option ReactModuleData)`; a stored `none` models a
  stored null pointer (which `QMap::operator[]` default-inserts for a
  missing key).
* Out-of-bounds `QList::operator[]` access is undefined behaviour in the
  C++ source; it is modelled as the `none` outcome of an `Option` result
  ("the program crashes / leaves the defined fragment").
* Invocations and logged errors are modelled as an event trace (`Ev`).
-/

namespace ReactUbuntu

/-- The subset of `QVariant` relevant to the dispatch path. -/
inductive QVariant where
  | vNull
  | vBool (b : Bool)
  | vInt (n : Int)
  | vStr (s : String)
  | vList (xs : List QVariant)

/-- `QVariant::toInt()`: the integral value when the variant holds one,
`0` / `1` for booleans, and `0` for non-convertible variants. -/
def QVariant.toInt : QVariant → Int
  | .vInt n => n
  | .vBool b => if b then 1 else 0
  | _ => 0

/-- `QVariant::toList()`: the held list, or the empty list when the variant
does not hold one. -/
def QVariant.toList : QVariant → List QVariant
  | .vList xs => xs
  | _ => []

/-- Modelled from the spec: `reactmodulemethod.{h,cpp}` is not under `src/`.
§3 "Method": a method belongs to one module and is identified by its index;
`invokeWithBridge` runs its native handler (recorded as an event here). -/
structure ReactModuleMethod where
  name : String
deriving DecidableEq

/-- Modelled from the spec: `reactmoduledata.{h,cpp}` is not under `src/`.
§3 "Module": a stable name, an ordered list of exported methods, and an
integer `id` assigned at registration time (monotonic per session, not
reused across reload). Constants are irrelevant to the claims and omitted. -/
structure ReactModuleData where
  id : Int
  name : String
  methods : List ReactModuleMethod
deriving DecidableEq

/-- Modelled from the spec: `ReactModuleData::method(int)` — §4.1
`resolve(moduleID, methodIndex) -> Method | NotFound`, methods indexed
`0..N-1` within their owning module. -/
def ReactModuleData.method (md : ReactModuleData) (i : Int) : Option ReactModuleMethod :=
  if i < 0 then none else md.methods.get? i.toNat

/-- The registry map `QMap<int, ReactModuleData*> modules` of
`ReactBridgePrivate`.  A `none` value is a stored null pointer. -/
abbrev ModMap := List (Int × Option ReactModuleData)

/-- First-match association-list lookup (`QMap` key lookup). -/
def mfind : ModMap → Int → Option (Option ReactModuleData)
  | [], _ => none
  | (k, v) :: rest, key => if k = key then some v else mfind rest key

/-- `QMap::operator[]` on a non-const `QMap<int, ReactModuleData*>`:
returns the stored pointer when the key is present; otherwise
default-inserts a null pointer under that key and returns it.
(This is the lookup `d->modules[moduleIDs[i].toInt()]` in
`ReactBridge::processResult`.) -/
def opIndex (m : ModMap) (key : Int) : Option ReactModuleData × ModMap :=
  match mfind m key with
  | some v => (v, m)
  | none => (none, m ++ [(key, none)])

/-- `QMap::insert`: replace the value under an existing key, else append. -/
def minsert (m : ModMap) (k : Int) (v : Option ReactModuleData) : ModMap :=
  if (mfind m k).isSome then
    m.map (fun kv => if kv.1 = k then (k, v) else kv)
  else
    m ++ [(k, v)]

/-- Observable dispatch events: logged errors and native-handler
invocations (`ReactModuleMethod::invokeWithBridge`). -/
inductive Ev where
  /-- `qCritical "Could not find referenced module"` -/
  | unresolvedModule (moduleId : Int)
  /-- `qCritical "Request for unsupported method"` -/
  | unresolvedMethod (moduleId methodIdx : Int)
  /-- `method->invokeWithBridge(this, paramArrays[i].toList())` -/
  | invoked (moduleId : Int) (methodName : String) (methodIdx : Int) (params : List QVariant)
  /-- `qCritical "Returned document from executor in unexpected form"` -/
  | badDoc

/-- The dispatch loop of `ReactBridge::processResult` (lines 439-453):
`for (int i = 0; i < moduleIDs.size(); ++i) { ... }`.  The loop walks the
`moduleIDs` list (carrying the absolute index `i`), resolves the module
via `QMap::operator[]`, then — only when the module resolved — reads
`methodIDs[i]`, and — only when the method also resolved — reads
`paramArrays[i]`.  Reading `methodIDs[i]` or `paramArrays[i]` past the end
of the list is out-of-bounds (`none` result). -/
def processEntries (meths pars : List QVariant) :
    List QVariant → Nat → ModMap → Option (ModMap × List Ev)
  | [], _, m => some (m, [])
  | mid :: rest, i, m =>
    match opIndex m mid.toInt with
    | (none, m1) =>
      (processEntries meths pars rest (i + 1) m1).map
        (fun r => (r.1, Ev.unresolvedModule mid.toInt :: r.2))
    | (some md, m1) =>
      match meths.get? i with
      | none => none
      | some methV =>
        match md.method methV.toInt with
        | none =>
          (processEntries meths pars rest (i + 1) m1).map
            (fun r => (r.1, Ev.unresolvedMethod md.id methV.toInt :: r.2))
        | some mm =>
          match pars.get? i with
          | none => none
          | some parV =>
            (processEntries meths pars rest (i + 1) m1).map
              (fun r => (r.1, Ev.invoked md.id mm.name methV.toInt parV.toList :: r.2))

/-- A `QJsonDocument` as seen by `ReactBridge::processResult`: null, an
array (whose `toVariant().toList()` is the given list), or anything else
(`!doc.isArray()`). -/
inductive QJsonDocument where
  | null
  | nonArray
  | array (requests : List QVariant)

/-- `ReactBridge::processResult` (lines 415-454).  A null document returns
silently; a non-array document logs a critical error and returns.  For an
array, the three parallel sequences are read at fixed positions 0, 1, 2
(`FieldRequestModuleIDs`, `FieldMethodIDs`, `FieldParams` — the header
defining the enum is not under `src/`; the positions follow the spec §6
wire shape: the ordered triple moduleIDs, methodIndices, params).  Reading
a missing position is out-of-bounds `QList` access (`none`). -/
def processResult (m : ModMap) (doc : QJsonDocument) : Option (ModMap × List Ev) :=
  match doc with
  | .null => some (m, [])
  | .nonArray => some (m, [Ev.badDoc])
  | .array requests =>
    match requests.get? 0, requests.get? 1, requests.get? 2 with
    | some a, some b, some c => processEntries b.toList c.toList a.toList 0 m
    | _, _, _ => none

/-- An executor instance (`ReactExecutor`).  `inited` records that
`init()` has been called on it. -/
structure ReactExecutor where
  name : String
  inited : Bool
deriving DecidableEq

/-- The environment for `ReactBridge::setupExecutor`'s named construction:
* `construct nm = none` models `QMetaType::type((nm + "*")) == UnknownType`
  (the named metatype is not registered, so the assignment to
  `d->executor` is skipped entirely);
* `construct nm = some none` models a known metatype whose
  `newInstance` / `qobject_cast<ReactExecutor*>` produced a null pointer;
* `construct nm = some (some e)` models successful construction of `e`. -/
structure ExecEnv where
  construct : String → Option (Option ReactExecutor)

/-- `ReactBridge::setupExecutor` (lines 141-159), with `prior` the value of
`d->executor` on entry (null on the `init()` path; on the `reload()` path
the old executor, already passed to `deleteLater`).  When the named
metatype is unknown, `d->executor` keeps its prior value; the fallback
`new ReactNetExecutor(this)` (with a `qWarning`) runs only when
`d->executor` is null afterwards.  The chosen executor is then connected
and `init()`-ed.  The second component records whether the fallback
warning was logged. -/
def setupExecutor (env : ExecEnv) (prior : Option ReactExecutor) (nm : String) :
    ReactExecutor × Bool :=
  let e1 : Option ReactExecutor :=
    match env.construct nm with
    | some r => r
    | none => prior
  match e1 with
  | none => ({ name := "ReactNetExecutor", inited := true }, true)
  | some e => ({ e with inited := true }, false)

/-- The bridge state relevant to the claims (fields of
`ReactBridgePrivate`).  `nam` records whether a `QNetworkAccessManager`
has been set (`d->nam != nullptr`). -/
structure BridgeState where
  ready : Bool
  executorName : String
  executor : Option ReactExecutor
  bundleUrl : String
  pluginsPath : String
  nam : Bool
  modules : ModMap
deriving DecidableEq

/-- `ReactBridge::setReady` (lines 215-223): no-op when the value is
unchanged, otherwise stores it and emits `readyChanged` (second component:
whether the signal was emitted). -/
def setReady (st : BridgeState) (r : Bool) : BridgeState × Bool :=
  if st.ready = r then (st, false) else ({ st with ready := r }, true)

/-- `processResult` acting on the bridge state (it reads and writes only
`d->modules`). -/
def processBatchState (st : BridgeState) (doc : QJsonDocument) :
    Option (BridgeState × List Ev) :=
  (processResult st.modules doc).map (fun r => ({ st with modules := r.1 }, r.2))

/-- The module-registration loop of `ReactBridge::initModules`
(lines 387-396): each object that casts to `ReactModuleInterface` gets
`setBridge` and a fresh `ReactModuleData` inserted under its id; an object
failing the cast is logged (`"A module loader exported an invalid
module"`) and skipped.  `none` in the input list models an object failing
the interface cast. -/
def initModulesMap : List (Option ReactModuleData) → ModMap → ModMap
  | [], m => m
  | none :: rest, m => initModulesMap rest m
  | some md :: rest, m => initModulesMap rest (minsert m md.id (some md))

/-- Modelled from the spec: `ReactModuleData::info()` is not under `src/`.
§4.1 `serializeConfig`: per-module structure of name and method data. -/
def moduleInfo (md : ReactModuleData) : QVariant :=
  QVariant.vList [QVariant.vStr md.name,
                  QVariant.vList (md.methods.map (fun mm => QVariant.vStr mm.name))]

/-- `ReactBridge::injectModules` (lines 399-413): builds the
`remoteModuleConfig` map by calling `md->name()` / `md->info()` on every
stored module pointer.  Calling through a stored null pointer is undefined
behaviour (`none`). -/
def injectConfig : ModMap → Option (List (String × QVariant))
  | [] => some []
  | (_, none) :: _ => none
  | (_, some md) :: rest => (injectConfig rest).map (fun cfg => (md.name, moduleInfo md) :: cfg)

/-- The config `injectModules` builds when no stored pointer is null
(used to state `injectConfig`'s defined value). -/
def configOf : ModMap → List (String × QVariant)
  | [] => []
  | (_, none) :: rest => configOf rest
  | (_, some md) :: rest => (md.name, moduleInfo md) :: configOf rest

/-- Lifecycle operations performed by `reload()` / `init()`, in program
order. -/
inductive Op where
  /-- a call to `setReady(b)` -/
  | readySet (b : Bool)
  /-- `d->executor->deleteLater()` — deferred destruction of the old executor -/
  | deleteLaterExecutor (e : ReactExecutor)
  /-- `setupExecutor()` finished with this executor connected and `init()`-ed -/
  | newExecutor (e : ReactExecutor)
  /-- `delete md` for every entry, then `d->modules.clear()` -/
  | clearModules
  /-- `initModules()` rebuilt the registry -/
  | buildModules
  /-- `injectJson("__fbBatchedBridgeConfig", {remoteModuleConfig: cfg})` -/
  | inject (cfg : List (String × QVariant))
  /-- `d->sourceCode->loadSource(d->nam)` -/
  | sourceLoad
  /-- `qCritical "No QNetworkAccessManager for loading sources"` (no load) -/
  | criticalNoNam

/-- `ReactBridge::loadSource` (lines 354-362). -/
def loadSourceOps (st : BridgeState) : List Op :=
  if st.nam then [Op.sourceLoad] else [Op.criticalNoNam]

/-- `ReactBridge::reload` (lines 171-189): `setReady(false)`;
`d->executor->deleteLater()` (undefined behaviour if the executor is null,
i.e. reload before init — `none`); `setupExecutor()` with the stale
pointer still in place; delete and clear all module data; `initModules()`
from scratch; `injectModules()`; `loadSource()`.  `newMods` is the module
object list the new `initModules()` run produces (internal + plugin +
source-code/image-loader/ui-manager specials). -/
def reload (env : ExecEnv) (newMods : List (Option ReactModuleData)) (st : BridgeState) :
    Option (BridgeState × List Op) :=
  match st.executor with
  | none => none
  | some oldExec =>
    let st1 := (setReady st false).1
    let newExec := (setupExecutor env st.executor st.executorName).1
    let m2 := initModulesMap newMods []
    let st2 := { st1 with executor := some newExec, modules := m2 }
    match injectConfig m2 with
    | none => none
    | some cfg =>
      some (st2, [Op.readySet false, Op.deleteLaterExecutor oldExec,
                  Op.newExecutor newExec, Op.clearModules, Op.buildModules,
                  Op.inject cfg] ++ loadSourceOps st2)

/-- A call handed to `ReactExecutor::executeJSCall`, with the callback it
registers. -/
structure IssuedJSCall where
  method : String
  args : List QVariant
  onResult : QJsonDocument → BridgeState → Option (BridgeState × List Ev)

/-- `ReactBridge::enqueueJSCall` (lines 191-198):
`executor->executeJSCall("callFunctionReturnFlushedQueue",
{module, method, args}, [=](doc){ processResult(doc); })`. -/
def enqueueJSCall (module method : String) (args : List QVariant) : IssuedJSCall :=
  { method := "callFunctionReturnFlushedQueue"
  , args := [QVariant.vStr module, QVariant.vStr method, QVariant.vList args]
  , onResult := fun doc st => processBatchState st doc }

/-- The single extra executor call `ReactBridge::applicationScriptDone`
(lines 456-464) schedules via a zero-delay timer:
`executeJSCall("flushedQueue", {}, ...)`. -/
structure PendingJSCall where
  method : String
  args : List QVariant

/-- The drain call issued by `applicationScriptDone`. -/
def applicationScriptDoneCall : PendingJSCall :=
  { method := "flushedQueue", args := [] }

/-- The callback body of the drain call in `applicationScriptDone`:
`processResult(doc); setReady(true);`. -/
def drainCallback (st : BridgeState) (doc : QJsonDocument) :
    Option (BridgeState × List Ev) :=
  (processBatchState st doc).map (fun r => ((setReady r.1 true).1, r.2))

/-- Process a sequence of batch callbacks, recording the value of `ready`
after each one (for the readiness-trace statements). -/
def runBatchesReady : BridgeState → List QJsonDocument → Option (BridgeState × List Bool)
  | st, [] => some (st, [])
  | st, d :: ds =>
    match processBatchState st d with
    | none => none
    | some (st1, _) =>
      match runBatchesReady st1 ds with
      | none => none
      | some (st2, rs) => some (st2, st1.ready :: rs)

/-- One `reload()` cycle: reload, then the batches produced while the
application script runs, then the `applicationScriptDone` drain
(`processResult` on the drain document followed by `setReady(true)`).
Returns the final state and the trace of `ready` values observed after
reload, after each batch, after the drain batch is processed, and after
the final `setReady`. -/
def runCycle (env : ExecEnv) (newMods : List (Option ReactModuleData)) (st : BridgeState)
    (batches : List QJsonDocument) (drainDoc : QJsonDocument) :
    Option (BridgeState × List Bool) :=
  match reload env newMods st with
  | none => none
  | some (st0, _) =>
    match runBatchesReady st0 batches with
    | none => none
    | some (st1, rs) =>
      match processBatchState st1 drainDoc with
      | none => none
      | some (st2, _) =>
        let st3 := (setReady st2 true).1
        some (st3, st0.ready :: rs ++ [st2.ready, st3.ready])

/-! ## Statement helpers

`resolveMod` is the observable resolution a batch entry performs: a module
id resolves iff the map stores a non-null pointer under it.  A stored null
(inserted by an earlier failed `operator[]` lookup) behaves exactly like a
missing key at dispatch time. -/

/-- The module a stored map resolves for an id: the stored pointer when it
is non-null, otherwise nothing. -/
def resolveMod (m : ModMap) (k : Int) : Option ReactModuleData :=
  match mfind m k with
  | some (some md) => some md
  | _ => none

/-- The event a single batch entry at absolute index `i` produces, stated
against a fixed map. -/
def entryEventAt (m : ModMap) (meths pars : List QVariant) (mid : QVariant) (i : Nat) : Ev :=
  match resolveMod m mid.toInt with
  | none => Ev.unresolvedModule mid.toInt
  | some md =>
    match md.method (meths.getD i QVariant.vNull).toInt with
    | none => Ev.unresolvedMethod md.id (meths.getD i QVariant.vNull).toInt
    | some mm => Ev.invoked md.id mm.name (meths.getD i QVariant.vNull).toInt
                   (pars.getD i QVariant.vNull).toList

/-- The per-entry event list a batch is expected to produce, in entry
order, starting at absolute index `i`. -/
def expectedEventsIdx (m : ModMap) (meths pars : List QVariant) :
    List QVariant → Nat → List Ev
  | [], _ => []
  | mid :: rest, i =>
    entryEventAt m meths pars mid i :: expectedEventsIdx m meths pars rest (i + 1)

/-- `m'` extends `m` by null-pointer insertions only: every key either has
the exact binding it had in `m`, or was absent from `m` and is now bound
to a null pointer. -/
def mapExt (m m' : ModMap) : Prop :=
  ∀ k, mfind m' k = mfind m k ∨ (mfind m k = none ∧ mfind m' k = some none)

/-! ## Shared lemmas -/

theorem mfind_append_single (m : ModMap) (k : Int) (v : Option ReactModuleData) (key : Int) :
    mfind (m ++ [(k, v)]) key
      = match mfind m key with
        | some w => some w
        | none => if k = key then some v else none := by
  induction m with
  | nil => simp [mfind]
  | cons kv rest ih =>
    by_cases h : kv.1 = key
    · simp [mfind, h]
    · simpa [mfind, h] using ih

theorem mapExt_refl (m : ModMap) : mapExt m m := fun _ => Or.inl rfl

theorem mapExt_trans {m1 m2 m3 : ModMap} (h12 : mapExt m1 m2) (h23 : mapExt m2 m3) :
    mapExt m1 m3 := by
  intro k
  rcases h23 k with h | ⟨h2, h3⟩
  · rcases h12 k with h' | ⟨h1, h2'⟩
    · exact Or.inl (h.trans h')
    · exact Or.inr ⟨h1, h.trans h2'⟩
  · rcases h12 k with h' | ⟨h1, h2'⟩
    · exact Or.inr ⟨h'.symm.trans h2, h3⟩
    · rw [h2'] at h2; cases h2


theorem mapExt_insertNone {m : ModMap} {k : Int} :
    mapExt m (m ++ [(k, none)]) := by
  intro key
  rw [mfind_append_single]
  cases hf : mfind m key with
  | some w => exact Or.inl rfl
  | none =>
    by_cases hk : k = key
    · subst hk; simp
    · simp [hk]

theorem resolveMod_of_mapExt {m m' : ModMap} (h : mapExt m m') (k : Int) :
    resolveMod m' k = resolveMod m k := by
  rcases h k with h' | ⟨h1, h2⟩
  · simp [resolveMod, h']
  · simp [resolveMod, h1, h2]

theorem processEntries_resolve (meths pars : List QVariant) :
    ∀ (mids : List QVariant) (i : Nat) (m m0 : ModMap),
      (∀ k, resolveMod m k = resolveMod m0 k) →
      (∀ j, j < mids.length → i + j < meths.length) →
      (∀ j, j < mids.length → i + j < pars.length) →
      ∃ m', processEntries meths pars mids i m
              = some (m', expectedEventsIdx m0 meths pars mids i)
            ∧ ∀ k, resolveMod m' k = resolveMod m0 k := by
  intro mids
  induction mids with
  | nil =>
    intro i m m0 hres _ _
    exact ⟨m, rfl, hres⟩
  | cons mid rest ih =>
    intro i m m0 hres hb1 hb2
    have hres0 : resolveMod m mid.toInt = resolveMod m0 mid.toInt := hres _
    have hm : i < meths.length := by have := hb1 0 (by simp); simpa using this
    have hp : i < pars.length := by have := hb2 0 (by simp); simpa using this
    obtain ⟨methV, hmeth⟩ : ∃ v, meths.get? i = some v := ⟨_, List.get?_eq_get hm⟩
    obtain ⟨parV, hpar⟩ : ∃ v, pars.get? i = some v := ⟨_, List.get?_eq_get hp⟩
    have hmeth' : meths[i]? = some methV := by
      rw [← List.get?_eq_getElem?]; exact hmeth
    have hpar' : pars[i]? = some parV := by
      rw [← List.get?_eq_getElem?]; exact hpar
    have hb1' : ∀ j, j < rest.length → (i + 1) + j < meths.length := by
      intro j hj
      have := hb1 (j + 1) (by simpa using Nat.succ_lt_succ hj)
      omega
    have hb2' : ∀ j, j < rest.length → (i + 1) + j < pars.length := by
      intro j hj
      have := hb2 (j + 1) (by simpa using Nat.succ_lt_succ hj)
      omega
    cases hf : mfind m mid.toInt with
    | none =>
      have hres' : ∀ k, resolveMod (m ++ [(mid.toInt, none)]) k = resolveMod m0 k :=
        fun k => (resolveMod_of_mapExt mapExt_insertNone k).trans (hres k)
      obtain ⟨m', hEq, hres''⟩ := ih (i + 1) _ m0 hres' hb1' hb2'
      refine ⟨m', ?_, hres''⟩
      have hrm : resolveMod m0 mid.toInt = none := by
        rw [← hres0]; simp [resolveMod, hf]
      simp [processEntries, opIndex, hf, hEq, expectedEventsIdx, entryEventAt, hrm]
    | some vOpt =>
      cases vOpt with
      | none =>
        obtain ⟨m', hEq, hres''⟩ := ih (i + 1) m m0 hres hb1' hb2'
        have hrm : resolveMod m0 mid.toInt = none := by
          rw [← hres0]; simp [resolveMod, hf]
        refine ⟨m', ?_, hres''⟩
        simp [processEntries, opIndex, hf, hEq, expectedEventsIdx, entryEventAt, hrm]
      | some md =>
        have hrm : resolveMod m0 mid.toInt = some md := by
          rw [← hres0]; simp [resolveMod, hf]
        obtain ⟨m', hEq, hres''⟩ := ih (i + 1) m m0 hres hb1' hb2'
        refine ⟨m', ?_, hres''⟩
        cases hmm : md.method methV.toInt with
        | none =>
          simp [processEntries, opIndex, hf, hmeth, hmm, hEq, expectedEventsIdx,
                entryEventAt, hrm, hmeth']
        | some mm =>
          simp [processEntries, opIndex, hf, hmeth, hmm, hpar, hEq, expectedEventsIdx,
                entryEventAt, hrm, hmeth', hpar']

theorem processEntries_mapExt (meths pars : List QVariant) :
    ∀ (mids : List QVariant) (i : Nat) (m m' : ModMap) (evs : List Ev),
      processEntries meths pars mids i m = some (m', evs) → mapExt m m' := by
  intro mids
  induction mids with
  | nil =>
    intro i m m' evs h
    simp [processEntries] at h
    rw [← h.1]
    exact mapExt_refl m
  | cons mid rest ih =>
    intro i m m' evs h
    cases hf : mfind m mid.toInt with
    | none =>
      rw [processEntries] at h
      simp only [opIndex, hf] at h
      obtain ⟨⟨r1, r2⟩, hr, hre⟩ := Option.map_eq_some'.mp h
      have h1 : m' = r1 := by
        simpa using congrArg Prod.fst hre.symm
      rw [h1]
      exact mapExt_trans mapExt_insertNone (ih (i + 1) _ r1 r2 hr)
    | some vOpt =>
      cases vOpt with
      | none =>
        rw [processEntries] at h
        simp only [opIndex, hf] at h
        obtain ⟨⟨r1, r2⟩, hr, hre⟩ := Option.map_eq_some'.mp h
        have h1 : m' = r1 := by
          simpa using congrArg Prod.fst hre.symm
        rw [h1]
        exact ih (i + 1) m r1 r2 hr
      | some md =>
        rw [processEntries] at h
        simp only [opIndex, hf] at h
        cases hg : meths.get? i with
        | none => rw [hg] at h; cases h
        | some methV =>
          rw [hg] at h
          dsimp only at h
          cases hmm : md.method methV.toInt with
          | none =>
            rw [hmm] at h
            obtain ⟨⟨r1, r2⟩, hr, hre⟩ := Option.map_eq_some'.mp h
            have h1 : m' = r1 := by
              simpa using congrArg Prod.fst hre.symm
            rw [h1]
            exact ih (i + 1) m r1 r2 hr
          | some mm =>
            rw [hmm] at h
            cases hq : pars.get? i with
            | none => rw [hq] at h; cases h
            | some parV =>
              rw [hq] at h
              dsimp only at h
              obtain ⟨⟨r1, r2⟩, hr, hre⟩ := Option.map_eq_some'.mp h
              have h1 : m' = r1 := by
                simpa using congrArg Prod.fst hre.symm
              rw [h1]
              exact ih (i + 1) m r1 r2 hr

theorem processResult_mapExt {m : ModMap} {doc : QJsonDocument} {m' : ModMap} {evs : List Ev}
    (h : processResult m doc = some (m', evs)) : mapExt m m' := by
  cases doc with
  | null =>
    simp [processResult] at h
    rw [← h.1]
    exact mapExt_refl m
  | nonArray =>
    simp [processResult] at h
    rw [← h.1]
    exact mapExt_refl m
  | array requests =>
    rw [processResult] at h
    cases h0 : requests.get? 0 with
    | none => rw [h0] at h; cases h
    | some a =>
      cases h1 : requests.get? 1 with
      | none => rw [h0, h1] at h; cases h
      | some b =>
        cases h2 : requests.get? 2 with
        | none => rw [h0, h1, h2] at h; cases h
        | some c =>
          rw [h0, h1, h2] at h
          exact processEntries_mapExt b.toList c.toList a.toList 0 m m' evs h

theorem setReady_fst (st : BridgeState) (b : Bool) :
    (setReady st b).1 = { st with ready := b } := by
  rw [setReady]
  by_cases h : st.ready = b
  · simp [h]
    cases st
    simp_all
  · simp [h]

theorem setReady_ready (st : BridgeState) (b : Bool) :
    (setReady st b).1.ready = b := by
  rw [setReady_fst]

/-- Every stored pointer in the map is non-null. -/
def allSome (m : ModMap) : Prop := ∀ p ∈ m, p.2.isSome = true

theorem allSome_minsert {m : ModMap} {k : Int} {md : ReactModuleData}
    (h : allSome m) : allSome (minsert m k (some md)) := by
  intro p hp
  rw [minsert] at hp
  by_cases hf : (mfind m k).isSome
  · simp only [hf, if_true] at hp
    obtain ⟨q, hq, hpe⟩ := List.mem_map.mp hp
    by_cases he : q.1 = k
    · simp [he] at hpe; rw [← hpe]; rfl
    · simp [he] at hpe; rw [← hpe]; exact h q hq
  · simp only [hf, if_false] at hp
    rcases List.mem_append.mp hp with h1 | h2
    · exact h p h1
    · simp at h2; rw [h2]
      rfl

theorem allSome_initModulesMap :
    ∀ (mods : List (Option ReactModuleData)) (m : ModMap),
      allSome m → allSome (initModulesMap mods m) := by
  intro mods
  induction mods with
  | nil => intro m h; exact h
  | cons o rest ih =>
    intro m h
    cases o with
    | none => exact ih m h
    | some md => exact ih _ (allSome_minsert h)

theorem injectConfig_eq_configOf :
    ∀ (m : ModMap), allSome m → injectConfig m = some (configOf m) := by
  intro m
  induction m with
  | nil => intro _; rfl
  | cons p rest ih =>
    intro h
    obtain ⟨k, v⟩ := p
    cases v with
    | none =>
      have := h (k, none) (by simp)
      simp at this
    | some md =>
      have hrest : allSome rest := fun q hq => h q (List.mem_cons_of_mem _ hq)
      simp [injectConfig, configOf, ih hrest]

theorem reload_eq (env : ExecEnv) (newMods : List (Option ReactModuleData))
    (st : BridgeState) (e : ReactExecutor) (hE : st.executor = some e) :
    reload env newMods st = some
      ({ st with ready := false,
                 executor := some (setupExecutor env (some e) st.executorName).1,
                 modules := initModulesMap newMods [] },
       [Op.readySet false, Op.deleteLaterExecutor e,
        Op.newExecutor (setupExecutor env (some e) st.executorName).1,
        Op.clearModules, Op.buildModules,
        Op.inject (configOf (initModulesMap newMods []))]
       ++ (if st.nam then [Op.sourceLoad] else [Op.criticalNoNam])) := by
  have hAll : allSome (initModulesMap newMods []) :=
    allSome_initModulesMap newMods [] (by intro p hp; cases hp)
  rw [reload, hE]
  dsimp only
  rw [injectConfig_eq_configOf _ hAll]
  simp [setReady_fst, loadSourceOps]

theorem reload_ready {env : ExecEnv} {newMods : List (Option ReactModuleData)}
    {st st' : BridgeState} {ops : List Op}
    (h : reload env newMods st = some (st', ops)) : st'.ready = false := by
  cases hE : st.executor with
  | none => rw [reload, hE] at h; cases h
  | some e =>
    rw [reload_eq env newMods st e hE, Option.some_inj, Prod.ext_iff] at h
    obtain ⟨h1, _⟩ := h
    dsimp only at h1
    rw [← h1]

theorem processBatchState_ready {st : BridgeState} {doc : QJsonDocument}
    {st1 : BridgeState} {evs : List Ev}
    (h : processBatchState st doc = some (st1, evs)) : st1.ready = st.ready := by
  obtain ⟨r, _, hre⟩ := Option.map_eq_some'.mp h
  have h1 : st1 = { st with modules := r.1 } := by
    simpa using congrArg Prod.fst hre.symm
  rw [h1]

theorem runBatchesReady_spec :
    ∀ (ds : List QJsonDocument) (st st1 : BridgeState) (rs : List Bool),
      runBatchesReady st ds = some (st1, rs) →
      st1.ready = st.ready ∧ rs = List.replicate ds.length st.ready := by
  intro ds
  induction ds with
  | nil =>
    intro st st1 rs h
    simp [runBatchesReady] at h
    obtain ⟨h1, h2⟩ := h
    subst h1
    subst h2
    exact ⟨rfl, rfl⟩
  | cons d rest ih =>
    intro st st1 rs h
    rw [runBatchesReady] at h
    cases hp : processBatchState st d with
    | none => rw [hp] at h; cases h
    | some r =>
      obtain ⟨stA, evs⟩ := r
      rw [hp] at h
      dsimp only at h
      cases hr : runBatchesReady stA rest with
      | none => rw [hr] at h; cases h
      | some r2 =>
        obtain ⟨stB, rs2⟩ := r2
        rw [hr] at h
        dsimp only at h
        obtain ⟨h1, h2⟩ := Prod.mk.injEq .. ▸ Option.some.inj h
        have hA : stA.ready = st.ready := processBatchState_ready hp
        obtain ⟨hB, hrs⟩ := ih stA stB rs2 hr
        constructor
        · rw [← h1, hB, hA]
        · rw [← h2, hrs, hA, List.length_cons, List.replicate_succ]


/-! ## Concrete fixtures (shared by witnesses and counterexamples) -/

/-- Module "A" of the spec §8 scenario: two methods. -/
def modA : ReactModuleData :=
  { id := 0, name := "A", methods := [{ name := "a0" }, { name := "a1" }] }

/-- Module "B" of the spec §8 scenario: one method. -/
def modB : ReactModuleData :=
  { id := 1, name := "B", methods := [{ name := "b0" }] }

/-- A registry holding A under id 0 and B under id 1. -/
def mapAB : ModMap := [(0, some modA), (1, some modB)]

/-- An environment in which no executor metatype is registered. -/
def envNone : ExecEnv := { construct := fun _ => none }

/-- An environment whose named construction always yields a null pointer
(metatype known, instantiation fails). -/
def envNullInstance : ExecEnv := { construct := fun _ => some none }

/-- A previously constructed executor that is not the default one. -/
def oldE : ReactExecutor := { name := "CustomExecutor", inited := true }

/-- Does an event list contain any native-handler invocation? -/
def hasInvoked : List Ev → Bool
  | [] => false
  | Ev.invoked _ _ _ _ :: _ => true
  | _ :: rest => hasInvoked rest

theorem hasInvoked_map_unresolved (mids : List QVariant) :
    hasInvoked (mids.map (fun v => Ev.unresolvedModule v.toInt)) = false := by
  induction mids with
  | nil => rfl
  | cons v rest ih => simpa [hasInvoked] using ih

/-! ## C9 -/

/-- C9: a null batch result means no calls, not an error — processing a
null document dispatches nothing, reports nothing, and leaves the bridge
state exactly unchanged. -/
theorem null_batch_is_noop (st : BridgeState) :
    processBatchState st QJsonDocument.null = some (st, []) := rfl

/-! ## C10 -/

/-- C10: readiness does not depend on the drain batch being well-formed —
the drain callback sets `ready` to `true` even when the drain document is
null or not an array (cases in which nothing is dispatched). -/
theorem drain_ready_on_degenerate_docs (st : BridgeState) :
    drainCallback st QJsonDocument.null = some ((setReady st true).1, [])
    ∧ drainCallback st QJsonDocument.nonArray = some ((setReady st true).1, [Ev.badDoc])
    ∧ (setReady st true).1.ready = true :=
  ⟨rfl, rfl, setReady_ready st true⟩

/-! ## C8 -/

/-- C8: `enqueueJSCall(module, method, args)` asks the executor to execute
exactly "callFunctionReturnFlushedQueue" with `[module, method, args]`,
and its callback routes the returned document through the common
batch-processing routine. -/
theorem enqueueJSCall_spec (module method : String) (args : List QVariant) :
    (enqueueJSCall module method args).method = "callFunctionReturnFlushedQueue"
    ∧ (enqueueJSCall module method args).args
        = [QVariant.vStr module, QVariant.vStr method, QVariant.vList args]
    ∧ ∀ (doc : QJsonDocument) (st : BridgeState),
        (enqueueJSCall module method args).onResult doc st = processBatchState st doc :=
  ⟨rfl, rfl, fun _ _ => rfl⟩

/-! ## C3 -/

/-- C3: for a batch whose three sequences have equal length, entries are
dispatched in index order; an entry whose module id or method index does
not resolve produces exactly its own reported error while every other
entry is still invoked with its own parameter list. -/
theorem equal_length_batch_dispatch (m : ModMap) (mids meths pars : List QVariant)
    (h1 : mids.length = meths.length) (h2 : mids.length = pars.length) :
    (processResult m (QJsonDocument.array
        [QVariant.vList mids, QVariant.vList meths, QVariant.vList pars])).map Prod.snd
      = some (expectedEventsIdx m meths pars mids 0) := by
  obtain ⟨m', hEq, _⟩ := processEntries_resolve meths pars mids 0 m m (fun _ => rfl)
    (fun j hj => by omega) (fun j hj => by omega)
  simp [processResult, QVariant.toList, hEq]

/-- C3 witness: the spec §8 scenario — the batch with module ids [0,1,0],
method indices [1,0,5] and parameter lists [[],[x],[]] over registry
{A, B} invokes A.a1 and B.b0 and reports one unresolved method for
(0,5). -/
theorem equal_length_batch_dispatch_witness :
    (processResult mapAB (QJsonDocument.array
        [QVariant.vList [QVariant.vInt 0, QVariant.vInt 1, QVariant.vInt 0],
         QVariant.vList [QVariant.vInt 1, QVariant.vInt 0, QVariant.vInt 5],
         QVariant.vList [QVariant.vList [], QVariant.vList [QVariant.vStr "x"],
                         QVariant.vList []]])).map Prod.snd
      = some (expectedEventsIdx mapAB
          [QVariant.vInt 1, QVariant.vInt 0, QVariant.vInt 5]
          [QVariant.vList [], QVariant.vList [QVariant.vStr "x"], QVariant.vList []]
          [QVariant.vInt 0, QVariant.vInt 1, QVariant.vInt 0] 0)
    ∧ expectedEventsIdx mapAB
          [QVariant.vInt 1, QVariant.vInt 0, QVariant.vInt 5]
          [QVariant.vList [], QVariant.vList [QVariant.vStr "x"], QVariant.vList []]
          [QVariant.vInt 0, QVariant.vInt 1, QVariant.vInt 0] 0
        = [Ev.invoked 0 "a1" 1 [], Ev.invoked 1 "b0" 0 [QVariant.vStr "x"],
           Ev.unresolvedMethod 0 5] :=
  ⟨equal_length_batch_dispatch mapAB _ _ _ rfl rfl, rfl⟩

/-! ## C2 -/

/-- C2 counterexample: a batch whose three sequences have lengths 1, 2, 2
is not rejected and no error is reported — its entry is dispatched; and a
batch with lengths 1, 0, 0 whose single module id resolves crashes on the
out-of-bounds `methodIDs[0]` access instead of being rejected. -/
theorem mismatched_batch_not_rejected_cex :
    processResult mapAB (QJsonDocument.array
      [QVariant.vList [QVariant.vInt 0],
       QVariant.vList [QVariant.vInt 0, QVariant.vInt 9],
       QVariant.vList [QVariant.vList [], QVariant.vList []]])
      = some (mapAB, [Ev.invoked 0 "a0" 0 []])
    ∧ processResult mapAB (QJsonDocument.array
      [QVariant.vList [QVariant.vInt 0], QVariant.vList [], QVariant.vList []])
      = none :=
  ⟨rfl, rfl⟩

/-- C2 (amended): no length validation is performed.  When the method and
parameter sequences are at least as long as the module-id sequence, every
module-id entry is dispatched per-entry exactly as in an equal-length
batch and the excess entries are silently ignored; no batch-level error is
reported.  (When one of them is shorter, the loop reads past its end —
undefined behaviour, the `none` outcome.) -/
theorem mismatched_batch_prefix_dispatch (m : ModMap) (mids meths pars : List QVariant)
    (h1 : mids.length ≤ meths.length) (h2 : mids.length ≤ pars.length) :
    (processResult m (QJsonDocument.array
        [QVariant.vList mids, QVariant.vList meths, QVariant.vList pars])).map Prod.snd
      = some (expectedEventsIdx m meths pars mids 0) := by
  obtain ⟨m', hEq, _⟩ := processEntries_resolve meths pars mids 0 m m (fun _ => rfl)
    (fun j hj => by omega) (fun j hj => by omega)
  simp [processResult, QVariant.toList, hEq]

/-- C2 witness: lengths 1, 2, 2 — the single entry invokes B.b0, the extra
method id and parameter list are ignored. -/
theorem mismatched_batch_prefix_dispatch_witness :
    (processResult mapAB (QJsonDocument.array
        [QVariant.vList [QVariant.vInt 1],
         QVariant.vList [QVariant.vInt 0, QVariant.vInt 7],
         QVariant.vList [QVariant.vList [], QVariant.vList []]])).map Prod.snd
      = some (expectedEventsIdx mapAB
          [QVariant.vInt 0, QVariant.vInt 7]
          [QVariant.vList [], QVariant.vList []]
          [QVariant.vInt 1] 0)
    ∧ expectedEventsIdx mapAB
          [QVariant.vInt 0, QVariant.vInt 7]
          [QVariant.vList [], QVariant.vList []]
          [QVariant.vInt 1] 0
        = [Ev.invoked 1 "b0" 0 []] :=
  ⟨mismatched_batch_prefix_dispatch mapAB _ _ _ (by decide) (by decide), rfl⟩

/-! ## C1 -/

/-- C1 counterexample: processing a batch that references an id missing
from the registry map mutates the map — `QMap::operator[]` default-inserts
a null entry for the id, so the map after processing differs from the map
before. -/
theorem registry_mutated_by_lookup_cex :
    processResult ([] : ModMap) (QJsonDocument.array
      [QVariant.vList [QVariant.vInt 5], QVariant.vList [], QVariant.vList []])
      = some ([(5, none)], [Ev.unresolvedModule 5])
    ∧ ([((5 : Int), (none : Option ReactModuleData))] : ModMap) ≠ ([] : ModMap) :=
  ⟨rfl, by simp⟩

/-- C1 (amended): dispatch never removes, overwrites, or adds a non-null
registry entry and never changes how any id resolves; its only mutation is
that looking up an id absent from the map default-inserts a null entry for
it.  Only `initModules` (from `init()`/`reload()`) adds non-null
entries. -/
theorem dispatch_preserves_resolution (m : ModMap) (doc : QJsonDocument)
    (m' : ModMap) (evs : List Ev) (h : processResult m doc = some (m', evs)) :
    ∀ k, resolveMod m' k = resolveMod m k
       ∧ (mfind m' k = mfind m k ∨ (mfind m k = none ∧ mfind m' k = some none)) := by
  have hext := processResult_mapExt h
  intro k
  exact ⟨resolveMod_of_mapExt hext k, hext k⟩

/-- A one-module registry used by the C1 witness. -/
def mapB1 : ModMap := [(1, some modB)]

/-- A batch referencing the unassigned id 9. -/
def docStray : QJsonDocument :=
  QJsonDocument.array
    [QVariant.vList [QVariant.vInt 9], QVariant.vList [], QVariant.vList []]

/-- C1 witness: after processing `docStray` against `mapB1`, id 9 resolves
as before (not at all) and its map entry is the fresh null insertion. -/
theorem dispatch_preserves_resolution_witness :
    resolveMod [(1, some modB), (9, none)] 9 = resolveMod mapB1 9
    ∧ (mfind [(1, some modB), (9, none)] 9 = mfind mapB1 9
       ∨ (mfind mapB1 9 = none ∧ mfind [(1, some modB), (9, none)] 9 = some none)) :=
  dispatch_preserves_resolution mapB1 docStray [(1, some modB), (9, none)]
    [Ev.unresolvedModule 9] rfl 9

/-! ## C5 -/

theorem processEntries_stale (meths pars : List QVariant) :
    ∀ (mids : List QVariant) (i : Nat) (m : ModMap),
      (∀ v ∈ mids, resolveMod m v.toInt = none) →
      ∃ m', processEntries meths pars mids i m
              = some (m', mids.map (fun v => Ev.unresolvedModule v.toInt)) := by
  intro mids
  induction mids with
  | nil => intro i m _; exact ⟨m, rfl⟩
  | cons mid rest ih =>
    intro i m hstale
    have h0 : resolveMod m mid.toInt = none := hstale mid (by simp)
    cases hf : mfind m mid.toInt with
    | none =>
      have hrest : ∀ v ∈ rest, resolveMod (m ++ [(mid.toInt, none)]) v.toInt = none := by
        intro v hv
        rw [resolveMod_of_mapExt mapExt_insertNone]
        exact hstale v (by simp [hv])
      obtain ⟨m', hEq⟩ := ih (i + 1) _ hrest
      exact ⟨m', by simp [processEntries, opIndex, hf, hEq]⟩
    | some vOpt =>
      cases vOpt with
      | none =>
        obtain ⟨m', hEq⟩ := ih (i + 1) m (fun v hv => hstale v (by simp [hv]))
        exact ⟨m', by simp [processEntries, opIndex, hf, hEq]⟩
      | some md =>
        simp [resolveMod, hf] at h0

/-- C5: after `reload()` rebuilds the registry, a straggler batch built
against the old registry whose module ids do not resolve in the new one
produces only unresolved-module errors — never an invocation on a
new-registry module. -/
theorem stale_batch_after_reload (env : ExecEnv) (newMods : List (Option ReactModuleData))
    (st st' : BridgeState) (ops : List Op) (mids meths pars : List QVariant)
    (_hre : reload env newMods st = some (st', ops))
    (hstale : ∀ v ∈ mids, resolveMod st'.modules v.toInt = none) :
    (processResult st'.modules (QJsonDocument.array
        [QVariant.vList mids, QVariant.vList meths, QVariant.vList pars])).map Prod.snd
      = some (mids.map (fun v => Ev.unresolvedModule v.toInt))
    ∧ hasInvoked (mids.map (fun v => Ev.unresolvedModule v.toInt)) = false := by
  obtain ⟨m', hEq⟩ := processEntries_stale meths pars mids 0 st'.modules hstale
  constructor
  · simp [processResult, QVariant.toList, hEq]
  · exact hasInvoked_map_unresolved mids

/-- The pre-reload bridge state of the C5 witness (registry A, B). -/
def stPre : BridgeState :=
  { ready := true, executorName := "X", executor := some oldE,
    bundleUrl := "u", pluginsPath := "p", nam := true, modules := mapAB }

/-- The post-reload bridge state of the C5 witness (fresh empty registry,
fallback executor). -/
def stPost : BridgeState :=
  { ready := false, executorName := "X",
    executor := some { name := "ReactNetExecutor", inited := true },
    bundleUrl := "u", pluginsPath := "p", nam := true, modules := [] }

/-- The operation trace of the C5 witness reload. -/
def opsPost : List Op :=
  [Op.readySet false, Op.deleteLaterExecutor oldE,
   Op.newExecutor { name := "ReactNetExecutor", inited := true },
   Op.clearModules, Op.buildModules, Op.inject [], Op.sourceLoad]

/-- C5 witness: reloading `stPre` with an empty module list, then feeding
the straggler batch `[0]` (a pre-reload id), reports one unresolved module
and invokes nothing. -/
theorem stale_batch_after_reload_witness :
    (processResult stPost.modules (QJsonDocument.array
        [QVariant.vList [QVariant.vInt 0], QVariant.vList [], QVariant.vList []])).map Prod.snd
      = some ([QVariant.vInt 0].map (fun v => Ev.unresolvedModule v.toInt))
    ∧ hasInvoked ([QVariant.vInt 0].map (fun v => Ev.unresolvedModule v.toInt)) = false :=
  stale_batch_after_reload envNullInstance [] stPre stPost opsPost
    [QVariant.vInt 0] [] [] rfl (fun _ _ => rfl)


/-! ## C7 -/

/-- C7 counterexample: on the reload path (a prior executor is present)
with an executor name whose metatype is not registered, `setupExecutor`
neither logs the fallback warning nor constructs the default
`ReactNetExecutor` — it silently retains the prior executor. -/
theorem setupExecutor_no_fallback_cex :
    setupExecutor envNone (some oldE) "MissingExecutor" = (oldE, false)
    ∧ oldE.name ≠ "ReactNetExecutor" :=
  ⟨rfl, by decide⟩

/-- C7 (amended): `setupExecutor` always ends with a non-null, `init()`-ed
executor, and the warned fallback to `ReactNetExecutor` fires exactly when
the executor pointer is null after the construction attempt: always when
instantiation of a known metatype fails, and for an unknown metatype only
when there is no prior executor — with a prior executor (the `reload()`
path) the prior, already-deleteLater'd executor is retained with no
warning. -/
theorem setupExecutor_cases (env : ExecEnv) (prior : Option ReactExecutor) (nm : String) :
    (setupExecutor env prior nm).1.inited = true
    ∧ (env.construct nm = some none →
        setupExecutor env prior nm = ({ name := "ReactNetExecutor", inited := true }, true))
    ∧ (env.construct nm = none → prior = none →
        setupExecutor env prior nm = ({ name := "ReactNetExecutor", inited := true }, true))
    ∧ (∀ p, env.construct nm = none → prior = some p →
        setupExecutor env prior nm = ({ p with inited := true }, false))
    ∧ (∀ ex, env.construct nm = some (some ex) →
        setupExecutor env prior nm = ({ ex with inited := true }, false)) := by
  refine ⟨?_, fun h => ?_, fun h hp => ?_, fun p h hp => ?_, fun ex h => ?_⟩
  · cases hc : env.construct nm with
    | none =>
      cases hp : prior with
      | none => simp [setupExecutor, hc, hp]
      | some p => simp [setupExecutor, hc, hp]
    | some r =>
      cases r with
      | none => simp [setupExecutor, hc]
      | some e => simp [setupExecutor, hc]
  · simp [setupExecutor, h]
  · simp [setupExecutor, h, hp]
  · simp [setupExecutor, h, hp]
  · simp [setupExecutor, h]

/-- C7 witness: on the `init()` path (no prior executor) with no metatype
registered, the result is the initialized default executor with the
warning logged. -/
theorem setupExecutor_cases_witness :
    (setupExecutor envNone none "MissingExecutor").1.inited = true
    ∧ setupExecutor envNone none "MissingExecutor"
        = ({ name := "ReactNetExecutor", inited := true }, true) :=
  ⟨(setupExecutor_cases envNone none "MissingExecutor").1,
   (setupExecutor_cases envNone none "MissingExecutor").2.2.1 rfl rfl⟩

/-! ## C6 -/

/-- The pre-reload state of the C6 counterexample. -/
def st6c : BridgeState :=
  { ready := true, executorName := "SomeMissingExecutor", executor := some oldE,
    bundleUrl := "u6", pluginsPath := "p6", nam := true, modules := [] }

/-- C6 counterexample: when the configured executor name's metatype is not
registered, `reload()` schedules the old executor for deferred destruction
yet retains that very executor as the one the bridge keeps using — the
executor is not rebuilt from scratch. -/
theorem reload_retains_executor_cex :
    reload envNone [] st6c = some
      ({ st6c with ready := false },
       [Op.readySet false, Op.deleteLaterExecutor oldE, Op.newExecutor oldE,
        Op.clearModules, Op.buildModules, Op.inject [], Op.sourceLoad])
    ∧ st6c.executor = some oldE
    ∧ oldE.name ≠ "ReactNetExecutor" :=
  ⟨rfl, rfl, by decide⟩

/-- C6 (amended): provided the configured executor name's metatype is
known (otherwise the old, already-deleteLater'd executor is retained, see
the counterexample), `reload()` performs in order: `setReady(false)`,
deferred destruction of the old executor, construction and `init()` of a
fresh executor, deletion and clearing of the module registry, a
from-scratch registry rebuild, config re-injection, and re-triggered
source loading — leaving bundle URL, plugins path and executor name
unchanged. -/
theorem reload_rebuilds (env : ExecEnv) (newMods : List (Option ReactModuleData))
    (st : BridgeState) (e : ReactExecutor) (r : Option ReactExecutor)
    (hE : st.executor = some e) (hN : st.nam = true)
    (hC : env.construct st.executorName = some r) :
    reload env newMods st = some
      ({ st with ready := false,
                 executor := some (setupExecutor env (some e) st.executorName).1,
                 modules := initModulesMap newMods [] },
       [Op.readySet false, Op.deleteLaterExecutor e,
        Op.newExecutor (setupExecutor env (some e) st.executorName).1,
        Op.clearModules, Op.buildModules,
        Op.inject (configOf (initModulesMap newMods [])), Op.sourceLoad])
    ∧ (setupExecutor env (some e) st.executorName).1
        = (match r with
           | none => { name := "ReactNetExecutor", inited := true }
           | some ex => { ex with inited := true }) := by
  constructor
  · rw [reload_eq env newMods st e hE]
    simp [hN]
  · cases r with
    | none => simp [setupExecutor, hC]
    | some ex => simp [setupExecutor, hC]

/-- A fresh executor the C6 witness environment constructs. -/
def freshE : ReactExecutor := { name := "NamedExec", inited := false }

/-- An environment that constructs `freshE` for every name. -/
def envFresh : ExecEnv := { construct := fun _ => some (some freshE) }

/-- The pre-reload state of the C6 witness. -/
def st6 : BridgeState :=
  { ready := true, executorName := "NamedExec", executor := some oldE,
    bundleUrl := "bundle", pluginsPath := "plugins", nam := true, modules := mapB1 }

/-- C6 witness: reloading `st6` in `envFresh` with an empty module list
exchanges the executor for the freshly constructed one, rebuilds the
registry from scratch, and keeps the configuration fields. -/
theorem reload_rebuilds_witness :
    reload envFresh [] st6 = some
      ({ st6 with ready := false,
                  executor := some (setupExecutor envFresh (some oldE) st6.executorName).1,
                  modules := initModulesMap [] [] },
       [Op.readySet false, Op.deleteLaterExecutor oldE,
        Op.newExecutor (setupExecutor envFresh (some oldE) st6.executorName).1,
        Op.clearModules, Op.buildModules,
        Op.inject (configOf (initModulesMap [] [])), Op.sourceLoad])
    ∧ (setupExecutor envFresh (some oldE) st6.executorName).1
        = (match (some freshE : Option ReactExecutor) with
           | none => { name := "ReactNetExecutor", inited := true }
           | some ex => { ex with inited := true }) :=
  reload_rebuilds envFresh [] st6 oldE (some freshE) rfl rfl rfl

/-! ## C4 -/

/-- C4: in every cycle, `ready` is `false` from the reload on, through
every batch processed while the application script runs and still when the
drain batch triggered by the application-script-done signal has just been
processed; only the final `setReady(true)` after that drain flips it, so
`ready` goes false→true exactly once, at the very last step — and the
drain is exactly one more "flushedQueue" call with no arguments. -/
theorem ready_once_per_cycle (env : ExecEnv) (newMods : List (Option ReactModuleData))
    (st st' : BridgeState) (batches : List QJsonDocument) (drainDoc : QJsonDocument)
    (tr : List Bool)
    (h : runCycle env newMods st batches drainDoc = some (st', tr)) :
    tr = List.replicate (batches.length + 2) false ++ [true]
    ∧ st'.ready = true
    ∧ applicationScriptDoneCall.method = "flushedQueue"
    ∧ applicationScriptDoneCall.args = [] := by
  rw [runCycle] at h
  cases hre : reload env newMods st with
  | none => rw [hre] at h; cases h
  | some r0 =>
    obtain ⟨st0, ops⟩ := r0
    rw [hre] at h
    dsimp only at h
    cases hrb : runBatchesReady st0 batches with
    | none => rw [hrb] at h; cases h
    | some r1 =>
      obtain ⟨st1, rs⟩ := r1
      rw [hrb] at h
      dsimp only at h
      cases hpb : processBatchState st1 drainDoc with
      | none => rw [hpb] at h; cases h
      | some r2 =>
        obtain ⟨st2, evs⟩ := r2
        rw [hpb] at h
        dsimp only at h
        obtain ⟨h1, h2⟩ := Prod.mk.injEq .. ▸ Option.some.inj h
        have hst0 : st0.ready = false := reload_ready hre
        obtain ⟨hst1, hrs⟩ := runBatchesReady_spec batches st0 st1 rs hrb
        have hst2 : st2.ready = st1.ready := processBatchState_ready hpb
        refine ⟨?_, ?_, rfl, rfl⟩
        · rw [← h2, hrs, hst0, hst2, hst1, hst0, setReady_ready]
          rw [show ([false, true] : List Bool) = [false] ++ [true] from rfl]
          rw [← List.append_assoc, ← List.replicate_succ, ← List.replicate_succ']
        · rw [← h1, setReady_ready]

/-- The pre-cycle state of the C4 witness. -/
def stCyc : BridgeState :=
  { ready := false, executorName := "E4", executor := some oldE,
    bundleUrl := "b4", pluginsPath := "p4", nam := true, modules := [] }

/-- The post-cycle state of the C4 witness. -/
def stCyc' : BridgeState :=
  { ready := true, executorName := "E4",
    executor := some { name := "ReactNetExecutor", inited := true },
    bundleUrl := "b4", pluginsPath := "p4", nam := true, modules := [] }

/-- C4 witness: a cycle with one null batch and a null drain — the ready
trace is false, false, false and only the final step is true. -/
theorem ready_once_per_cycle_witness :
    [false, false, false, true]
      = List.replicate ([QJsonDocument.null].length + 2) false ++ [true]
    ∧ stCyc'.ready = true
    ∧ applicationScriptDoneCall.method = "flushedQueue"
    ∧ applicationScriptDoneCall.args = [] :=
  ready_once_per_cycle envNullInstance [] stCyc stCyc' [QJsonDocument.null]
    QJsonDocument.null [false, false, false, true] rfl

end ReactUbuntu
